import Mathlib

/-!
Shallow embedding of the PropertyGraphViewer API server
(`src/client/server/index.ts`): input validation helpers, the
`/function/graph` (GetNeighborhood) handler and the `/source` (GetSource)
handler, together with models of the JavaScript built-ins they rely on
(`decodeURIComponent`, `String.prototype.trim`, UTF-16 `length` /
`substring`, `Array.prototype.slice`) and of the SQLite queries they issue
(`ORDER BY` under the default BINARY collation).

JavaScript strings are modelled as Lean `String` (sequences of Unicode
scalar values); `length`, `substring` and `slice` are modelled at UTF-16
code-unit granularity where the source uses them.
-/

/-- Validation constants from the top of `src/client/server/index.ts`. -/
def MAX_QUERY_LENGTH : Nat := 200

/-- Maximum identifier length (`MAX_ID_LENGTH` in the source). -/
def MAX_ID_LENGTH : Nat := 500

/-- Node cap for the graph response (`MAX_NODES_IN_GRAPH` in the source). -/
def MAX_NODES_IN_GRAPH : Nat := 1000

/-- Minimum query length (`MIN_QUERY_LENGTH` in the source). -/
def MIN_QUERY_LENGTH : Nat := 1

/-- Value of a hexadecimal digit character, as in ECMAScript `Decode`. -/
def hexVal (c : Char) : Option Nat :=
  let n := c.toNat
  if 48 ≤ n ∧ n ≤ 57 then some (n - 48)
  else if 65 ≤ n ∧ n ≤ 70 then some (n - 55)
  else if 97 ≤ n ∧ n ≤ 102 then some (n - 87)
  else none

/-- First phase of ECMAScript `decodeURIComponent`: replace every
`%hh` escape by the octet it denotes, keep every other character as-is.
Fails (`none`) exactly when a `%` is not followed by two hex digits. -/
def pctParse : List Char → Option (List (Sum Char Nat))
  | [] => some []
  | c :: rest =>
    if c = '%' then
      match rest with
      | h :: l :: rest2 =>
        match hexVal h, hexVal l with
        | some hv, some lv =>
          (pctParse rest2).map (fun items => Sum.inr (16 * hv + lv) :: items)
        | _, _ => none
      | _ => none
    else (pctParse rest).map (fun items => Sum.inl c :: items)

/-- UTF-8 continuation byte test. -/
def isCont (b : Nat) : Bool := 128 ≤ b && b ≤ 191

/-- Second phase of ECMAScript `decodeURIComponent`: octets below 0x80
stand for themselves; higher octets must start a well-formed, shortest-form
UTF-8 sequence whose scalar value is not a surrogate and is at most
U+10FFFF, all of whose continuation octets also came from `%hh` escapes. -/
def utf8Assemble : List (Sum Char Nat) → Option (List Char)
  | [] => some []
  | Sum.inl c :: rest => (utf8Assemble rest).map (fun cs => c :: cs)
  | Sum.inr b0 :: rest =>
    if b0 < 128 then (utf8Assemble rest).map (fun cs => Char.ofNat b0 :: cs)
    else if 194 ≤ b0 ∧ b0 ≤ 223 then
      match rest with
      | Sum.inr b1 :: rest2 =>
        if isCont b1 then
          (utf8Assemble rest2).map (fun cs => Char.ofNat ((b0 - 192) * 64 + (b1 - 128)) :: cs)
        else none
      | _ => none
    else if 224 ≤ b0 ∧ b0 ≤ 239 then
      match rest with
      | Sum.inr b1 :: Sum.inr b2 :: rest2 =>
        let v := (b0 - 224) * 4096 + (b1 - 128) * 64 + (b2 - 128)
        if isCont b1 ∧ isCont b2 ∧ 2048 ≤ v ∧ ¬(55296 ≤ v ∧ v ≤ 57343) then
          (utf8Assemble rest2).map (fun cs => Char.ofNat v :: cs)
        else none
      | _ => none
    else if 240 ≤ b0 ∧ b0 ≤ 244 then
      match rest with
      | Sum.inr b1 :: Sum.inr b2 :: Sum.inr b3 :: rest2 =>
        let v := (b0 - 240) * 262144 + (b1 - 128) * 4096 + (b2 - 128) * 64 + (b3 - 128)
        if isCont b1 ∧ isCont b2 ∧ isCont b3 ∧ 65536 ≤ v ∧ v ≤ 1114111 then
          (utf8Assemble rest2).map (fun cs => Char.ofNat v :: cs)
        else none
      | _ => none
    else none

/-- Model of `decodeURIComponent`: `none` models a thrown `URIError`. -/
def percentDecode (s : String) : Option String :=
  (pctParse s.data).bind (fun items => (utf8Assemble items).map (fun cs => String.mk cs))

/-- Code points removed by `String.prototype.trim` (ECMAScript WhiteSpace
and LineTerminator). -/
def jsWhitespace (c : Char) : Bool :=
  let n := c.toNat
  n = 9 || n = 10 || n = 11 || n = 12 || n = 13 || n = 32 || n = 160 ||
  n = 5760 || (8192 ≤ n && n ≤ 8202) || n = 8232 || n = 8233 ||
  n = 8239 || n = 8287 || n = 12288 || n = 65279

/-- Model of `String.prototype.trim`. -/
def jsTrim (s : String) : String :=
  String.mk (((s.data.dropWhile jsWhitespace).reverse.dropWhile jsWhitespace).reverse)

/-- Number of UTF-16 code units used to encode one code point. -/
def utf16Width (c : Char) : Nat := if 65536 ≤ c.toNat then 2 else 1

/-- Model of the JavaScript `length` of a string (UTF-16 code units). -/
def utf16Len (s : String) : Nat := (s.data.map utf16Width).sum

/-- Longest prefix of the character list that fits in `n` UTF-16 code
units. (`String.prototype.substring(0, n)` can split a surrogate pair and
keep a lone high surrogate; a lone surrogate is not representable as a
Lean `Char`, so the split code point is dropped whole. No claim below
depends on that corner.) -/
def utf16TakeAux : List Char → Nat → List Char
  | [], _ => []
  | c :: cs, n => if utf16Width c ≤ n then c :: utf16TakeAux cs (n - utf16Width c) else []

/-- Model of `s.substring(0, n)` at UTF-16 granularity. -/
def utf16Take (n : Nat) (s : String) : String := String.mk (utf16TakeAux s.data n)

/-- Characters removed by the control-character strip
`replace(/[\x00-\x08\x0B-\x0C\x0E-\x1F\x7F]/g, '')` in the source. -/
def isStrippedControl (c : Char) : Bool :=
  let n := c.toNat
  n ≤ 8 || (11 ≤ n && n ≤ 12) || (14 ≤ n && n ≤ 31) || n = 127

/-- Model of the control-character strip used by both validators. -/
def stripControl (s : String) : String :=
  String.mk (s.data.filter (fun c => !isStrippedControl c))

/-- Model of `replace(/[%_]/g, '\\$&')`: backslash-escape the SQL LIKE
wildcards. -/
def escapeLike (s : String) : String :=
  String.mk (s.data.flatMap (fun c => if c = '%' ∨ c = '_' then ['\\', c] else [c]))

/-- Character class of the identifier regex `/^[a-zA-Z0-9:_\/@.\-]+$/`. -/
def allowedChar (c : Char) : Bool :=
  let n := c.toNat
  (65 ≤ n && n ≤ 90) || (97 ≤ n && n ≤ 122) || (48 ≤ n && n ≤ 57) ||
  n = 58 || n = 95 || n = 47 || n = 64 || n = 46 || n = 45

/-- Model of `/^[a-zA-Z0-9:_\/@.\-]+$/.test s`: nonempty and every
character in the allowed class. -/
def allowedAll (s : String) : Bool := !(s.data.isEmpty) && s.data.all allowedChar

/-- Result record shared by the validators (`{valid, sanitized, error}`).
`validateFunctionId` in the source omits `sanitized`; it is not modelled
because no handler calls it. -/
structure VResult where
  valid : Bool
  sanitized : String
  error : Option String
deriving DecidableEq, Repr

/-- Model of the JavaScript `a || b` idiom on an optional string
(`undefined` and the empty string are falsy). -/
def jsOrStr (o : Option String) (d : String) : String :=
  match o with
  | some s => if s = "" then d else s
  | none => d

/-- Model of `validateSearchQuery` from `src/client/server/index.ts`. -/
def validateSearchQuery (query : String) : VResult :=
  let sanitized := jsTrim query
  if utf16Len sanitized > 0 ∧ utf16Len sanitized < MIN_QUERY_LENGTH then
    ⟨false, "", some ("Query too short (min " ++ Nat.repr MIN_QUERY_LENGTH ++ " character)")⟩
  else
    let sanitized2 := if utf16Len sanitized > MAX_QUERY_LENGTH then
      utf16Take MAX_QUERY_LENGTH sanitized else sanitized
    let sanitized3 := stripControl sanitized2
    let sanitized4 := escapeLike sanitized3
    ⟨true, sanitized4, none⟩

/-- Model of the `try { decodeURIComponent } catch { use the raw string }`
block of `sanitizeNodeId`. -/
def jsDecodeOrRaw (nodeId : String) : String :=
  match percentDecode nodeId with
  | some s => s
  | none => nodeId

/-- Model of `sanitizeNodeId` from `src/client/server/index.ts`. The
`!nodeId` guard is the JavaScript falsiness test, which on strings is the
empty-string test; `typeof` is enforced by the type. -/
def sanitizeNodeId (nodeId : String) : VResult :=
  if nodeId = "" then ⟨false, "", some ("Node ID is required")⟩
  else
    let trimmed := jsTrim (jsDecodeOrRaw nodeId)
    if trimmed = "" then ⟨false, "", some ("Node ID cannot be empty")⟩
    else if utf16Len trimmed > MAX_ID_LENGTH then
      ⟨false, "", some ("Node ID too long (max " ++ Nat.repr MAX_ID_LENGTH ++ " characters)")⟩
    else
      let stripped := stripControl trimmed
      if allowedAll stripped then ⟨true, stripped, none⟩
      else ⟨false, "", some ("Node ID contains invalid characters")⟩

/-- Row of the `nodes` table (columns used by the server). -/
structure NodeRow where
  id : String
  name : Option String
  kind : String
  package : Option String
  file : Option String
  line : Option Int
  end_line : Option Int
  type_info : Option String
deriving DecidableEq, Repr

/-- Row of the `edges` table. -/
structure EdgeRow where
  source : String
  target : String
  kind : String
deriving DecidableEq, Repr

/-- Row of the `sources` table. -/
structure SourceFileRow where
  file : String
  content : String
deriving DecidableEq, Repr

/-- The read-only SQLite store. List order models on-disk row order,
which is the order in which full-table scans return rows. -/
structure DB where
  nodes : List NodeRow
  edges : List EdgeRow
  sources : List SourceFileRow
deriving DecidableEq, Repr

/-- Row shape produced by `neighborhoodStmt` (direction tag plus the
selected node columns). -/
structure NRow where
  direction : String
  id : String
  name : Option String
  package : Option String
  file : Option String
  line : Option Int
deriving DecidableEq, Repr

/-- Three-way comparison of character lists by code point. UTF-8 encoding
preserves code-point order, so this is exactly SQLite's default BINARY
collation (byte-wise `memcmp`) on the stored TEXT values. -/
def lexCmp : List Char → List Char → Ordering
  | [], [] => Ordering.eq
  | [], _ :: _ => Ordering.lt
  | _ :: _, [] => Ordering.gt
  | a :: as, b :: bs =>
    if a.toNat < b.toNat then Ordering.lt
    else if b.toNat < a.toNat then Ordering.gt
    else lexCmp as bs

/-- BINARY-collation comparison of two TEXT values. -/
def strCmp (a b : String) : Ordering := lexCmp a.data b.data

/-- SQLite ordering on a nullable TEXT column: NULL sorts before any
string in ascending order. -/
def optStrCmp : Option String → Option String → Ordering
  | none, none => Ordering.eq
  | none, some _ => Ordering.lt
  | some _, none => Ordering.gt
  | some a, some b => strCmp a b

/-- Sort key of `ORDER BY direction, name` on neighborhood rows. -/
def nrowCmp (a b : NRow) : Ordering :=
  match strCmp a.direction b.direction with
  | Ordering.eq => optStrCmp a.name b.name
  | o => o

/-- Nonstrict order on neighborhood rows induced by `nrowCmp`. -/
def nrowLe (a b : NRow) : Prop := nrowCmp a b ≠ Ordering.gt

instance : DecidableRel nrowLe :=
  fun a b => inferInstanceAs (Decidable (nrowCmp a b ≠ Ordering.gt))

/-- Rows of the first arm of `neighborhoodStmt`: for each `call` edge into
`fid`, every `function` node whose id is the edge's source, tagged
`caller`. -/
def callerRows (db : DB) (fid : String) : List NRow :=
  (db.edges.filter (fun e => e.kind == ("call") && e.target == fid)).flatMap
    (fun e => (db.nodes.filter (fun n => n.id == e.source && n.kind == ("function"))).map
      (fun n => ⟨("caller"), n.id, n.name, n.package, n.file, n.line⟩))

/-- Rows of the second arm of `neighborhoodStmt`: for each `call` edge out
of `fid`, every `function` node whose id is the edge's target, tagged
`callee`. -/
def calleeRows (db : DB) (fid : String) : List NRow :=
  (db.edges.filter (fun e => e.kind == ("call") && e.source == fid)).flatMap
    (fun e => (db.nodes.filter (fun n => n.id == e.target && n.kind == ("function"))).map
      (fun n => ⟨("callee"), n.id, n.name, n.package, n.file, n.line⟩))

/-- Model of `neighborhoodStmt`: the `UNION ALL` of the two arms, with the
trailing `ORDER BY direction, name` applied to the whole compound select.
SQL leaves the relative order of key-ties open, so any sort consistent
with the key is a faithful model; insertion sort is used. -/
def neighborhoodQuery (db : DB) (fid : String) : List NRow :=
  List.insertionSort nrowLe (callerRows db fid ++ calleeRows db fid)

/-- Insertion-ordered deduplication, the iteration order of a JavaScript
`Set` (`Array.from(nodeIds)`). -/
def dedupAux (seen : List String) : List String → List String
  | [] => []
  | a :: as => if seen.contains a then dedupAux seen as else a :: dedupAux (a :: seen) as

/-- Model of `Array.from(new Set(...))` over the pushed id sequence. -/
def dedupKeepFirst (l : List String) : List String := dedupAux [] l

/-- Node payload of the graph response (`{data: {id, label}}`). -/
structure GNode where
  id : String
  label : String
deriving DecidableEq, Repr

/-- Edge payload of the graph response (`{data: {id, source, target}}`). -/
structure GEdge where
  id : String
  source : String
  target : String
deriving DecidableEq, Repr

/-- Body of a successful graph response. -/
structure GraphResponse where
  nodes : List GNode
  edges : List GEdge
deriving DecidableEq, Repr

/-- Outcome of the `/function/graph` handler: an HTTP error status with
its `error` message, or the JSON graph payload. -/
inductive GraphOutcome where
  | err (status : Nat) (msg : String)
  | ok (r : GraphResponse)
deriving DecidableEq, Repr

/-- Id sequence pushed into the `nodeIds` set by the handler, after
deduplication: the target's id followed by each distinct neighbor id in
row order. -/
def nodeIdSet (db : DB) (fid : String) : List String :=
  dedupKeepFirst (fid :: (neighborhoodQuery db fid).map (fun r => r.id))

/-- Body of the `/function/graph` handler after validation succeeded with
the sanitized id `fid`. Mirrors the source statement by statement:
neighborhood query, target lookup restricted to `kind = 'function'`,
fallback any-kind lookup for the error message, node array construction,
id deduplication, the `MAX_NODES_IN_GRAPH` truncation of the id array,
and the induced-edge query with synthetic `edge-<index>` ids. -/
def graphForId (db : DB) (fid : String) : GraphOutcome :=
  let rows := neighborhoodQuery db fid
  match db.nodes.find? (fun n => n.id == fid && n.kind == ("function")) with
  | none =>
    match db.nodes.find? (fun n => n.id == fid) with
    | some anyNode =>
      GraphOutcome.err 400 ("Node exists but is not a function (kind: " ++ anyNode.kind ++ ")")
    | none => GraphOutcome.err 404 ("Function not found: " ++ fid)
  | some fr =>
    let nodes := (⟨fr.id, jsOrStr fr.name fr.id⟩ : GNode) ::
      rows.map (fun r => (⟨r.id, jsOrStr r.name r.id⟩ : GNode))
    let ids := dedupKeepFirst (fr.id :: rows.map (fun r => r.id))
    if ids.isEmpty then GraphOutcome.ok ⟨nodes, []⟩
    else
      let ids2 := if ids.length > MAX_NODES_IN_GRAPH then ids.take MAX_NODES_IN_GRAPH else ids
      let edgeRows := db.edges.filter
        (fun e => e.kind == ("call") && ids2.contains e.source && ids2.contains e.target)
      GraphOutcome.ok ⟨nodes, (edgeRows.enum).map
        (fun p => ⟨("edge-") ++ Nat.repr p.1, p.2.source, p.2.target⟩)⟩

/-- Model of the `GET /function/graph` handler. -/
def functionGraphHandler (db : DB) (raw : String) : GraphOutcome :=
  let v := sanitizeNodeId raw
  if v.valid then graphForId db v.sanitized
  else GraphOutcome.err 400 (jsOrStr v.error ("Invalid function ID"))

/-- Body of a successful source response (`SourceRow` in the source). -/
structure SourceRow where
  file_name : String
  start_line : Int
  end_line : Int
  code : String
deriving DecidableEq, Repr

/-- Outcome of the `/source` handler, one constructor per distinct JSON
shape the source can send. -/
inductive SourceOutcome where
  | badRequest (msg : String)
  | extNotFound (name : Option String) (pkg : Option String) (type_info : Option String)
  | extNotFoundPlain
  | nodeNotFound
  | noFile (name : Option String) (pkg : Option String)
  | fileMissing (file : String)
  | ok (r : SourceRow)
deriving DecidableEq, Repr

/-- Model of `nodeId.startsWith('ext::')`. -/
def hasExtMarker (s : String) : Bool := List.isPrefixOf (("ext::").data) s.data

/-- Helper of `jsSplitNl`: split the remaining characters at newlines,
with the reversed current segment as accumulator. -/
def splitLinesAux : List Char → List Char → List String
  | [], acc => [String.mk acc.reverse]
  | c :: cs, acc =>
    if c = '\n' then String.mk acc.reverse :: splitLinesAux cs []
    else splitLinesAux cs (c :: acc)

/-- Model of `content.split('\n')`: the empty string yields one empty
segment, and a trailing newline yields a trailing empty segment. -/
def jsSplitNl (s : String) : List String := splitLinesAux s.data []

/-- Model of the JavaScript `a || b` idiom on a nullable number (`null`
and `0` are falsy). -/
def orFalsy (o : Option Int) (d : Int) : Int :=
  match o with
  | some v => if v = 0 then d else v
  | none => d

/-- Clamped index resolution of `Array.prototype.slice` (negative values
count from the end). -/
def jsIdx (len : Nat) (i : Int) : Nat :=
  if i < 0 then (Int.ofNat len + i).toNat else min i.toNat len

/-- Model of `Array.prototype.slice(s, e)`. -/
def jsSlice {α : Type} (l : List α) (s e : Int) : List α :=
  (l.drop (jsIdx l.length s)).take (jsIdx l.length e - jsIdx l.length s)

/-- Body of the `/source` handler after validation succeeded with the
sanitized id `nodeId`. Mirrors the source: external-marker test with
metadata lookup, node lookup, the falsy `!node.file` test (null or empty
string), source-file lookup, then the line slicing and defaulting chain
`(node.line || 1) - 1` / `(node.end_line || node.line || lines.length) - 1`
over `content.split('\n')`. -/
def sourceForId (db : DB) (nodeId : String) : SourceOutcome :=
  if hasExtMarker nodeId then
    match db.nodes.find? (fun n => n.id == nodeId) with
    | some n => SourceOutcome.extNotFound n.name n.package n.type_info
    | none => SourceOutcome.extNotFoundPlain
  else
    match db.nodes.find? (fun n => n.id == nodeId) with
    | none => SourceOutcome.nodeNotFound
    | some node =>
      match node.file with
      | none => SourceOutcome.noFile node.name node.package
      | some f =>
        if f = "" then SourceOutcome.noFile node.name node.package
        else
          match db.sources.find? (fun s => s.file == f) with
          | none => SourceOutcome.fileMissing f
          | some src =>
            let lines := jsSplitNl src.content
            let startLine := orFalsy node.line 1 - 1
            let endLine := orFalsy node.end_line (orFalsy node.line (Int.ofNat lines.length)) - 1
            let code := String.intercalate ("\n") (jsSlice lines startLine (endLine + 1))
            SourceOutcome.ok ⟨f, orFalsy node.line 1,
              orFalsy node.end_line (orFalsy node.line (Int.ofNat lines.length)), code⟩

/-- Model of the `GET /source` handler. -/
def sourceHandler (db : DB) (raw : String) : SourceOutcome :=
  let v := sanitizeNodeId raw
  if v.valid then sourceForId db v.sanitized
  else SourceOutcome.badRequest (jsOrStr v.error ("Invalid node ID"))

/-! ### Order-theoretic facts about the BINARY-collation comparator -/

theorem char_toNat_inj {a b : Char} (h : a.toNat = b.toNat) : a = b :=
  Char.eq_of_val_eq (UInt32.toNat.inj h)

theorem string_data_inj {s t : String} (h : s.data = t.data) : s = t :=
  congrArg String.mk h

theorem lexCmp_eq_iff (a : List Char) : ∀ b, lexCmp a b = Ordering.eq ↔ a = b := by
  induction a with
  | nil => intro b; cases b <;> simp [lexCmp]
  | cons x xs ih =>
    intro b
    cases b with
    | nil => simp [lexCmp]
    | cons y ys =>
      unfold lexCmp
      split_ifs with h1 h2
      · constructor
        · intro h; exact absurd h (by decide)
        · intro h; injection h with hx hxs; subst hx; omega
      · constructor
        · intro h; exact absurd h (by decide)
        · intro h; injection h with hx hxs; subst hx; omega
      · have hxy : x = y := char_toNat_inj (by omega)
        subst hxy
        simp [ih]

theorem lexCmp_swap (a : List Char) : ∀ b, lexCmp b a = (lexCmp a b).swap := by
  induction a with
  | nil => intro b; cases b <;> simp [lexCmp, Ordering.swap]
  | cons x xs ih =>
    intro b
    cases b with
    | nil => simp [lexCmp, Ordering.swap]
    | cons y ys =>
      unfold lexCmp
      split_ifs <;> first | omega | exact ih ys | rfl

theorem lexCmp_lt_trans : ∀ (a b c : List Char), lexCmp a b = Ordering.lt →
    lexCmp b c = Ordering.lt → lexCmp a c = Ordering.lt := by
  intro a
  induction a with
  | nil =>
    intro b c h1 h2
    cases b with
    | nil => exact absurd h1 (by simp [lexCmp])
    | cons y ys =>
      cases c with
      | nil => exact absurd h2 (by simp [lexCmp])
      | cons z zs => simp [lexCmp]
  | cons x xs ih =>
    intro b c h1 h2
    cases b with
    | nil => exact absurd h1 (by simp [lexCmp])
    | cons y ys =>
      cases c with
      | nil => exact absurd h2 (by simp [lexCmp])
      | cons z zs =>
        unfold lexCmp at h1 h2 ⊢
        split_ifs at h1 h2 ⊢ <;>
          first
          | rfl
          | omega
          | exact absurd h1 (by decide)
          | exact absurd h2 (by decide)
          | exact ih ys zs h1 h2

theorem lexCmp_le_trans {a b c : List Char} (h1 : lexCmp a b ≠ Ordering.gt)
    (h2 : lexCmp b c ≠ Ordering.gt) : lexCmp a c ≠ Ordering.gt := by
  cases hab : lexCmp a b with
  | gt => exact absurd hab h1
  | eq =>
    have hb := (lexCmp_eq_iff a b).mp hab
    subst hb
    exact h2
  | lt =>
    cases hbc : lexCmp b c with
    | gt => exact absurd hbc h2
    | eq =>
      have hc := (lexCmp_eq_iff b c).mp hbc
      subst hc
      simp [hab]
    | lt => simp [lexCmp_lt_trans a b c hab hbc]

theorem strCmp_eq_iff (a b : String) : strCmp a b = Ordering.eq ↔ a = b := by
  unfold strCmp
  rw [lexCmp_eq_iff]
  exact ⟨fun h => string_data_inj h, fun h => by rw [h]⟩

theorem strCmp_swap (a b : String) : strCmp b a = (strCmp a b).swap := lexCmp_swap a.data b.data

theorem strCmp_le_trans {a b c : String} (h1 : strCmp a b ≠ Ordering.gt)
    (h2 : strCmp b c ≠ Ordering.gt) : strCmp a c ≠ Ordering.gt := lexCmp_le_trans h1 h2

theorem optStrCmp_swap (x y : Option String) : optStrCmp y x = (optStrCmp x y).swap := by
  cases x with
  | none =>
    cases y with
    | none => rfl
    | some b => rfl
  | some a =>
    cases y with
    | none => rfl
    | some b => exact strCmp_swap a b

theorem optStrCmp_le_trans {x y z : Option String} (h1 : optStrCmp x y ≠ Ordering.gt)
    (h2 : optStrCmp y z ≠ Ordering.gt) : optStrCmp x z ≠ Ordering.gt := by
  cases x with
  | none => cases z <;> simp [optStrCmp]
  | some a =>
    cases y with
    | none => exact absurd rfl h1
    | some b =>
      cases z with
      | none => exact absurd rfl h2
      | some c => exact strCmp_le_trans h1 h2

theorem nrowCmp_swap (a b : NRow) : nrowCmp b a = (nrowCmp a b).swap := by
  unfold nrowCmp
  rw [strCmp_swap a.direction b.direction]
  cases strCmp a.direction b.direction with
  | lt => rfl
  | gt => rfl
  | eq => exact optStrCmp_swap a.name b.name

theorem nrowLe_total (a b : NRow) : nrowLe a b ∨ nrowLe b a := by
  unfold nrowLe
  rw [nrowCmp_swap a b]
  cases nrowCmp a b with
  | lt => left; decide
  | eq => left; decide
  | gt => right; decide

theorem nrowLe_trans {a b c : NRow} (h1 : nrowLe a b) (h2 : nrowLe b c) : nrowLe a c := by
  unfold nrowLe nrowCmp at h1 h2 ⊢
  cases hab : strCmp a.direction b.direction with
  | gt => rw [hab] at h1; exact absurd rfl h1
  | eq =>
    have hdir := (strCmp_eq_iff a.direction b.direction).mp hab
    rw [hab] at h1
    rw [hdir]
    cases hbc : strCmp b.direction c.direction with
    | gt => rw [hbc] at h2; exact absurd rfl h2
    | lt => exact (by decide : Ordering.lt ≠ Ordering.gt)
    | eq =>
      rw [hbc] at h2
      exact optStrCmp_le_trans h1 h2
  | lt =>
    cases hbc : strCmp b.direction c.direction with
    | gt => rw [hbc] at h2; exact absurd rfl h2
    | eq =>
      have hdir := (strCmp_eq_iff b.direction c.direction).mp hbc
      rw [← hdir, hab]
      exact (by decide : Ordering.lt ≠ Ordering.gt)
    | lt =>
      have hlt : strCmp a.direction c.direction = Ordering.lt :=
        lexCmp_lt_trans a.direction.data b.direction.data c.direction.data hab hbc
      rw [hlt]
      exact (by decide : Ordering.lt ≠ Ordering.gt)

instance : IsTrans NRow nrowLe := ⟨fun _ _ _ => nrowLe_trans⟩

instance : IsTotal NRow nrowLe := ⟨nrowLe_total⟩

/-! ### C2: ordering of the neighborhood rows -/

/-- Target node shared by the concrete stores below. -/
def tFn : NodeRow := ⟨("t"), some ("t"), ("function"), none, none, none, none, none⟩

/-- Function node `a` of the concrete stores. -/
def aFn : NodeRow := ⟨("a"), some ("a"), ("function"), none, none, none, none, none⟩

/-- Function node `b` of the concrete stores. -/
def bFn : NodeRow := ⟨("b"), some ("b"), ("function"), none, none, none, none, none⟩

/-- Store with one caller (`a`) and one callee (`b`) of `t`. -/
def dbC2 : DB := ⟨[tFn, aFn, bFn], [⟨("a"), ("t"), ("call")⟩, ⟨("t"), ("b"), ("call")⟩], []⟩

/-- C2, refuted as stated: on a store where `t` has caller `a` and callee
`b`, the neighborhood rows come back callee first, because the SQL
`ORDER BY direction` sorts the direction tags by BINARY collation and
`callee` < `caller`. The claim as stated demands the direction sequence
`[caller, callee]`; the code produces `[callee, caller]`. -/
theorem c2_counterexample :
    (neighborhoodQuery dbC2 ("t")).map (fun r => r.direction) = [("callee"), ("caller")] ∧
    (neighborhoodQuery dbC2 ("t")).map (fun r => r.direction) ≠ [("caller"), ("callee")] := by
  constructor
  · decide
  · decide

/-- C2, as amended: for every store and id, the direction-tagged
neighborhood rows are sorted by the `ORDER BY direction, name` key, which
puts all callee rows before all caller rows (BINARY collation:
`callee` < `caller`), and within each direction orders rows by name with
NULL names first; every row is tagged `caller` or `callee`. -/
theorem c2_neighborhood_ordered (db : DB) (fid : String) :
    (neighborhoodQuery db fid).Sorted nrowLe ∧
    (neighborhoodQuery db fid).Pairwise (fun x y =>
      (x.direction = ("caller") → y.direction ≠ ("callee")) ∧
      (x.direction = y.direction → optStrCmp x.name y.name ≠ Ordering.gt)) ∧
    ∀ r ∈ neighborhoodQuery db fid, r.direction = ("caller") ∨ r.direction = ("callee") := by
  refine ⟨List.sorted_insertionSort nrowLe _, ?_, ?_⟩
  · apply List.Pairwise.imp ?_ (List.sorted_insertionSort nrowLe _)
    intro x y hle
    constructor
    · intro hx hy
      apply hle
      unfold nrowCmp
      have hgt : strCmp x.direction y.direction = Ordering.gt := by
        rw [hx, hy]; decide
      rw [hgt]
    · intro hxy hgt
      apply hle
      unfold nrowCmp
      rw [(strCmp_eq_iff x.direction y.direction).mpr hxy]
      exact hgt
  · intro r hr
    rw [neighborhoodQuery, List.mem_insertionSort, List.mem_append] at hr
    rcases hr with h | h
    · left
      unfold callerRows at h
      rcases List.mem_flatMap.mp h with ⟨e, _, hr2⟩
      rcases List.mem_map.mp hr2 with ⟨n, _, heq⟩
      rw [← heq]
    · right
      unfold calleeRows at h
      rcases List.mem_flatMap.mp h with ⟨e, _, hr2⟩
      rcases List.mem_map.mp hr2 with ⟨n, _, heq⟩
      rw [← heq]

/-! ### Support lemmas about the JavaScript built-in models -/

theorem pctParse_of_no_pct {l : List Char} (h : ∀ c ∈ l, c ≠ '%') :
    pctParse l = some (l.map Sum.inl) := by
  induction l with
  | nil => rfl
  | cons c cs ih =>
    unfold pctParse
    rw [if_neg (h c (List.mem_cons_self c cs))]
    rw [ih (fun x hx => h x (List.mem_cons_of_mem c hx))]
    rfl

theorem utf8Assemble_map_inl (l : List Char) : utf8Assemble (l.map Sum.inl) = some l := by
  induction l with
  | nil => rfl
  | cons c cs ih =>
    rw [List.map_cons]
    show (utf8Assemble (cs.map Sum.inl)).map (fun cs2 => c :: cs2) = some (c :: cs)
    rw [ih]
    rfl

theorem percentDecode_of_no_pct {s : String} (h : ∀ c ∈ s.data, c ≠ '%') :
    percentDecode s = some s := by
  unfold percentDecode
  rw [pctParse_of_no_pct h]
  show (utf8Assemble (s.data.map Sum.inl)).map (fun cs => String.mk cs) = some s
  rw [utf8Assemble_map_inl]
  rfl

theorem jsDecodeOrRaw_of_no_pct {s : String} (h : ∀ c ∈ s.data, c ≠ '%') :
    jsDecodeOrRaw s = s := by
  unfold jsDecodeOrRaw
  rw [percentDecode_of_no_pct h]

theorem dropWhile_eq_self_of_forall {α : Type} {p : α → Bool} {l : List α}
    (h : ∀ c ∈ l, p c = false) : l.dropWhile p = l := by
  cases l with
  | nil => rfl
  | cons c cs =>
    rw [List.dropWhile_cons_of_neg]
    simp [h c (List.mem_cons_self c cs)]

theorem jsTrim_eq_self {s : String} (h : ∀ c ∈ s.data, jsWhitespace c = false) :
    jsTrim s = s := by
  unfold jsTrim
  rw [dropWhile_eq_self_of_forall h]
  rw [dropWhile_eq_self_of_forall (fun c hc => h c (List.mem_reverse.mp hc))]
  rw [List.reverse_reverse]

theorem stripControl_eq_self {s : String} (h : ∀ c ∈ s.data, isStrippedControl c = false) :
    stripControl s = s := by
  unfold stripControl
  rw [List.filter_eq_self.mpr (fun c hc => by simp [h c hc])]

theorem sum_map_filter_le (w : Char → Nat) (p : Char → Bool) (l : List Char) :
    ((l.filter p).map w).sum ≤ (l.map w).sum := by
  induction l with
  | nil => simp
  | cons c cs ih =>
    rw [List.filter_cons]
    by_cases h : p c <;> simp [h] <;> omega

theorem utf16Len_stripControl_le (s : String) : utf16Len (stripControl s) ≤ utf16Len s :=
  sum_map_filter_le utf16Width (fun c => !isStrippedControl c) s.data

theorem allowedChar_nat {c : Char} (h : allowedChar c = true) :
    (65 ≤ c.toNat ∧ c.toNat ≤ 90) ∨ (97 ≤ c.toNat ∧ c.toNat ≤ 122) ∨
    (48 ≤ c.toNat ∧ c.toNat ≤ 57) ∨ c.toNat = 58 ∨ c.toNat = 95 ∨ c.toNat = 47 ∨
    c.toNat = 64 ∨ c.toNat = 46 ∨ c.toNat = 45 := by
  unfold allowedChar at h
  simp only [Bool.or_eq_true, Bool.and_eq_true, decide_eq_true_eq] at h
  tauto

theorem allowedChar_ne_pct {c : Char} (h : allowedChar c = true) : c ≠ '%' := by
  intro he
  subst he
  exact absurd h (by decide)

theorem allowedChar_not_ws {c : Char} (h : allowedChar c = true) : jsWhitespace c = false := by
  have hn := allowedChar_nat h
  rw [Bool.eq_false_iff]
  intro hw
  unfold jsWhitespace at hw
  simp only [Bool.or_eq_true, Bool.and_eq_true, decide_eq_true_eq] at hw
  omega

theorem allowedChar_not_control {c : Char} (h : allowedChar c = true) :
    isStrippedControl c = false := by
  have hn := allowedChar_nat h
  rw [Bool.eq_false_iff]
  intro hw
  unfold isStrippedControl at hw
  simp only [Bool.or_eq_true, Bool.and_eq_true, decide_eq_true_eq] at hw
  omega

theorem allowedAll_ne_empty {s : String} (h : allowedAll s = true) : s ≠ "" := by
  unfold allowedAll at h
  rw [Bool.and_eq_true] at h
  intro he
  subst he
  exact absurd h.1 (by decide)

theorem allowedAll_chars {s : String} (h : allowedAll s = true) :
    ∀ c ∈ s.data, allowedChar c = true := by
  unfold allowedAll at h
  rw [Bool.and_eq_true] at h
  exact List.all_eq_true.mp h.2

/-- Unfolding equation for `validateSearchQuery` with its `let` bindings
expanded. -/
theorem validateSearchQuery_eq (q : String) :
    validateSearchQuery q =
      if utf16Len (jsTrim q) > 0 ∧ utf16Len (jsTrim q) < MIN_QUERY_LENGTH then
        ⟨false, "", some ("Query too short (min " ++ Nat.repr MIN_QUERY_LENGTH ++ " character)")⟩
      else
        ⟨true, escapeLike (stripControl (if utf16Len (jsTrim q) > MAX_QUERY_LENGTH then
          utf16Take MAX_QUERY_LENGTH (jsTrim q) else jsTrim q)), none⟩ := rfl

/-- Unfolding equation for `sanitizeNodeId` with its `let` bindings
expanded. -/
theorem sanitizeNodeId_eq (nodeId : String) :
    sanitizeNodeId nodeId =
      if nodeId = "" then ⟨false, "", some ("Node ID is required")⟩
      else if jsTrim (jsDecodeOrRaw nodeId) = "" then
        ⟨false, "", some ("Node ID cannot be empty")⟩
      else if utf16Len (jsTrim (jsDecodeOrRaw nodeId)) > MAX_ID_LENGTH then
        ⟨false, "", some ("Node ID too long (max " ++ Nat.repr MAX_ID_LENGTH ++ " characters)")⟩
      else if allowedAll (stripControl (jsTrim (jsDecodeOrRaw nodeId))) then
        ⟨true, stripControl (jsTrim (jsDecodeOrRaw nodeId)), none⟩
      else ⟨false, "", some ("Node ID contains invalid characters")⟩ := rfl

/-! ### C9: totality of validateSearchQuery -/

/-- C9: `validateSearchQuery` is total over string inputs and never fails:
for every string it returns `valid = true` with no error; in particular the
"Query too short" branch is unreachable, since its guard demands a trimmed
length both positive and below `MIN_QUERY_LENGTH = 1`. -/
theorem c9_validateSearchQuery_total (q : String) :
    (validateSearchQuery q).valid = true ∧ (validateSearchQuery q).error = none := by
  rw [validateSearchQuery_eq]
  rw [if_neg (by simp only [MIN_QUERY_LENGTH]; omega)]
  exact ⟨rfl, rfl⟩

/-! ### C4: over-long search terms are truncated, not rejected -/

/-- String of 201 copies of the letter a. -/
def q201 : String := String.mk (List.replicate 201 'a')

set_option maxRecDepth 4000 in
/-- C4, refuted as stated: a 201-character search term is not rejected;
`validateSearchQuery` accepts it (`valid = true`) and silently shortens it
to the 200-unit ceiling before processing. -/
theorem c4_counterexample :
    utf16Len (jsTrim q201) > MAX_QUERY_LENGTH ∧
    (validateSearchQuery q201).valid = true ∧
    (validateSearchQuery q201).sanitized = String.mk (List.replicate 200 'a') := by
  refine ⟨by decide, by decide, by decide⟩

/-- C4, as amended: a search term whose trimmed length exceeds the
200-unit ceiling is not rejected; validation succeeds and the term is
silently truncated to the first 200 UTF-16 units of its trimmed form, then
control-stripped and wildcard-escaped. -/
theorem c4_overlong_truncated (q : String) (h : utf16Len (jsTrim q) > MAX_QUERY_LENGTH) :
    validateSearchQuery q =
      ⟨true, escapeLike (stripControl (utf16Take MAX_QUERY_LENGTH (jsTrim q))), none⟩ := by
  rw [validateSearchQuery_eq]
  rw [if_neg (by simp only [MIN_QUERY_LENGTH]; omega)]
  rw [if_pos h]

set_option maxRecDepth 4000 in
/-- Witness for C4's amended theorem at the concrete 201-character term. -/
theorem c4_witness :
    utf16Len (jsTrim q201) > MAX_QUERY_LENGTH ∧
    validateSearchQuery q201 =
      ⟨true, escapeLike (stripControl (utf16Take MAX_QUERY_LENGTH (jsTrim q201))), none⟩ :=
  ⟨by decide, c4_overlong_truncated q201 (by decide)⟩

/-! ### C5: rejection of disallowed characters -/

/-- C5, refuted as stated: the two-character input of a space followed by
the letter a contains a character outside the allowed class (the space),
yet `sanitizeNodeId` accepts it with sanitized output a: surrounding
whitespace is trimmed away before the character-class check runs, so the
validator does not reject every string containing a disallowed
character. -/
theorem c5_counterexample :
    (" a").data.any (fun c => !allowedChar c) = true ∧
    sanitizeNodeId (" a") = ⟨true, ("a"), none⟩ :=
  ⟨by decide, by decide⟩

/-- C5, as amended: `sanitizeNodeId` rejects with the "invalid characters"
reason exactly when a disallowed character survives its preprocessing:
for every input whose URL-decoded, trimmed form is nonempty and within the
500-unit bound, and whose control-stripped form still contains a character
outside the allowed class, the result is the "invalid characters"
validation error. (Leading/trailing whitespace is trimmed, characters in
the stripped control ranges are deleted, and percent-escapes are decoded
first, so such characters alone do not cause rejection.) -/
theorem c5_invalid_chars_rejected (s : String)
    (h1 : jsTrim (jsDecodeOrRaw s) ≠ "")
    (h2 : utf16Len (jsTrim (jsDecodeOrRaw s)) ≤ MAX_ID_LENGTH)
    (h3 : (stripControl (jsTrim (jsDecodeOrRaw s))).data.any (fun c => !allowedChar c) = true) :
    sanitizeNodeId s = ⟨false, "", some ("Node ID contains invalid characters")⟩ := by
  have hs : s ≠ "" := by
    intro he
    subst he
    exact h1 (by decide)
  rw [sanitizeNodeId_eq]
  rw [if_neg hs, if_neg h1, if_neg (Nat.not_lt.mpr h2)]
  rw [if_neg ?_]
  intro hall
  rcases List.any_eq_true.mp h3 with ⟨c, hc, hpc⟩
  have hcall := allowedAll_chars hall c hc
  rw [hcall] at hpc
  exact absurd hpc (by decide)

/-- Witness for C5's amended theorem at the concrete input a;b (the
semicolon is outside the allowed class and survives preprocessing). -/
theorem c5_witness :
    (stripControl (jsTrim (jsDecodeOrRaw ("a;b")))).data.any (fun c => !allowedChar c) = true ∧
    sanitizeNodeId ("a;b") = ⟨false, "", some ("Node ID contains invalid characters")⟩ :=
  ⟨by decide, c5_invalid_chars_rejected ("a;b") (by decide) (by decide) (by decide)⟩

/-! ### C10: idempotence of sanitizeNodeId on accepted outputs -/

/-- C10: `sanitizeNodeId` is idempotent on its accepted outputs: whenever
it accepts an input with sanitized output `r`, running it again on `r`
accepts and returns `r` unchanged. The accepted output contains only
allowed-class characters, so it has no percent signs (decoding is the
identity), no surrounding whitespace (trimming is the identity), no
stripped control characters, and its length is bounded by the length
already checked. -/
theorem c10_sanitizeNodeId_idempotent (s r : String)
    (h : sanitizeNodeId s = ⟨true, r, none⟩) :
    sanitizeNodeId r = ⟨true, r, none⟩ := by
  rw [sanitizeNodeId_eq] at h
  by_cases h0 : s = ""
  · rw [if_pos h0] at h
    exact absurd h (by simp)
  rw [if_neg h0] at h
  by_cases ht : jsTrim (jsDecodeOrRaw s) = ""
  · rw [if_pos ht] at h
    exact absurd h (by simp)
  rw [if_neg ht] at h
  by_cases hl : utf16Len (jsTrim (jsDecodeOrRaw s)) > MAX_ID_LENGTH
  · rw [if_pos hl] at h
    exact absurd h (by simp)
  rw [if_neg hl] at h
  by_cases ha : allowedAll (stripControl (jsTrim (jsDecodeOrRaw s))) = true
  · rw [if_pos ha] at h
    injection h with hv hsan herr
    have hra : allowedAll r = true := hsan ▸ ha
    have hchars := allowedAll_chars hra
    have hrne : r ≠ "" := allowedAll_ne_empty hra
    have hdec : jsDecodeOrRaw r = r :=
      jsDecodeOrRaw_of_no_pct (fun c hc => allowedChar_ne_pct (hchars c hc))
    have htrim : jsTrim r = r :=
      jsTrim_eq_self (fun c hc => allowedChar_not_ws (hchars c hc))
    have hstrip : stripControl r = r :=
      stripControl_eq_self (fun c hc => allowedChar_not_control (hchars c hc))
    have hlen : utf16Len r ≤ MAX_ID_LENGTH := by
      have hle := utf16Len_stripControl_le (jsTrim (jsDecodeOrRaw s))
      rw [hsan] at hle
      omega
    rw [sanitizeNodeId_eq, if_neg hrne, hdec, htrim, if_neg hrne,
      if_neg (Nat.not_lt.mpr hlen), hstrip, if_pos hra]
  · rw [if_neg ha] at h
    exact absurd h (by simp)

/-- Witness for C10 at the concrete input %61, which decodes to a and is
accepted; re-validating the output a returns it unchanged. -/
theorem c10_witness :
    sanitizeNodeId ("%61") = ⟨true, ("a"), none⟩ ∧
    sanitizeNodeId ("a") = ⟨true, ("a"), none⟩ :=
  ⟨by decide, c10_sanitizeNodeId_idempotent ("%61") ("a") (by decide)⟩

/-! ### C6: not-found versus wrong-kind in the graph handler -/

theorem find?_eq_some_of_unique {α : Type} (p : α → Bool) (l : List α) (n : α)
    (hn : n ∈ l) (hpn : p n = true) (huniq : ∀ m ∈ l, p m = true → m = n) :
    l.find? p = some n := by
  induction l with
  | nil => cases hn
  | cons a as ih =>
    by_cases hpa : p a = true
    · rw [List.find?_cons_of_pos _ hpa]
      rw [huniq a (List.mem_cons_self a as) hpa]
    · rw [List.find?_cons_of_neg _ (by simp [hpa])]
      apply ih
      · rcases List.mem_cons.mp hn with heq | hmem
        · subst heq
          exact absurd hpn hpa
        · exact hmem
      · exact fun m hm hpm => huniq m (List.mem_cons_of_mem a hm) hpm

/-- After a successful validation, the graph handler is its body at the
sanitized id. -/
theorem functionGraphHandler_valid {db : DB} {raw fid : String}
    (hval : sanitizeNodeId raw = ⟨true, fid, none⟩) :
    functionGraphHandler db raw = graphForId db fid := by
  unfold functionGraphHandler
  rw [hval]
  rfl

theorem graphForId_not_found {db : DB} {fid : String}
    (hno : ∀ n ∈ db.nodes, n.id ≠ fid) :
    graphForId db fid = GraphOutcome.err 404 (("Function not found: ") ++ fid) := by
  unfold graphForId
  have h1 : db.nodes.find? (fun n => n.id == fid && n.kind == ("function")) = none := by
    rw [List.find?_eq_none]
    intro n hn
    simp [hno n hn]
  have h2 : db.nodes.find? (fun n => n.id == fid) = none := by
    rw [List.find?_eq_none]
    intro n hn
    simp [hno n hn]
  rw [h1, h2]

theorem graphForId_wrong_kind {db : DB} {fid : String} {n : NodeRow}
    (hnodup : (db.nodes.map (fun m => m.id)).Nodup)
    (hn : n ∈ db.nodes) (hid : n.id = fid) (hkind : n.kind ≠ ("function")) :
    graphForId db fid =
      GraphOutcome.err 400 (("Node exists but is not a function (kind: ") ++ n.kind ++ (")")) := by
  unfold graphForId
  have huniq : ∀ m ∈ db.nodes, m.id = fid → m = n := by
    intro m hm hmid
    exact List.inj_on_of_nodup_map hnodup hm hn (by rw [hmid, hid])
  have h1 : db.nodes.find? (fun m => m.id == fid && m.kind == ("function")) = none := by
    rw [List.find?_eq_none]
    intro m hm hpm
    rw [Bool.and_eq_true, beq_iff_eq, beq_iff_eq] at hpm
    apply hkind
    rw [← huniq m hm hpm.1]
    exact hpm.2
  have h2 : db.nodes.find? (fun m => m.id == fid) = some n := by
    apply find?_eq_some_of_unique _ _ _ hn (by simp [hid])
    intro m hm hpm
    rw [beq_iff_eq] at hpm
    exact huniq m hm hpm
  rw [h1, h2]

/-- C6: on a validated id, the graph handler distinguishes the two
failures: if no node carries the id, it answers 404 "Function not found";
if a node carries the id but its kind is not `function`, it answers 400
naming the node's actual kind. The id-uniqueness invariant of the store
(`Node.id` is unique) is the `hnodup` hypothesis. -/
theorem c6_not_found_vs_wrong_kind (db : DB) (raw fid : String)
    (hval : sanitizeNodeId raw = ⟨true, fid, none⟩)
    (hnodup : (db.nodes.map (fun n => n.id)).Nodup) :
    ((∀ n ∈ db.nodes, n.id ≠ fid) →
      functionGraphHandler db raw = GraphOutcome.err 404 (("Function not found: ") ++ fid)) ∧
    (∀ n ∈ db.nodes, n.id = fid → n.kind ≠ ("function") →
      functionGraphHandler db raw =
        GraphOutcome.err 400 (("Node exists but is not a function (kind: ") ++ n.kind ++ (")"))) := by
  constructor
  · intro hno
    rw [functionGraphHandler_valid hval]
    exact graphForId_not_found hno
  · intro n hn hid hkind
    rw [functionGraphHandler_valid hval]
    exact graphForId_wrong_kind hnodup hn hid hkind

/-- Node of kind struct used by the C6 witness store. -/
def structNode : NodeRow := ⟨("a"), some ("a"), ("struct"), none, none, none, none, none⟩

/-- Witness store for C6: one node of kind struct. -/
def dbC6 : DB := ⟨[structNode], [], []⟩

/-- Witness for C6: on the one-struct-node store, an unknown id answers
404 and the struct node's id answers 400 naming kind struct. -/
theorem c6_witness :
    functionGraphHandler dbC6 ("b") = GraphOutcome.err 404 (("Function not found: ") ++ ("b")) ∧
    functionGraphHandler dbC6 ("a") =
      GraphOutcome.err 400 (("Node exists but is not a function (kind: ") ++
        structNode.kind ++ (")")) :=
  ⟨(c6_not_found_vs_wrong_kind dbC6 ("b") ("b") (by decide) (by decide)).1 (by decide),
   (c6_not_found_vs_wrong_kind dbC6 ("a") ("a") (by decide) (by decide)).2 structNode
     (by decide) rfl (by decide)⟩

/-! ### Support lemmas for the source handler -/

/-- After a successful validation, the source handler is its body at the
sanitized id. -/
theorem sourceHandler_valid {db : DB} {raw fid : String}
    (hval : sanitizeNodeId raw = ⟨true, fid, none⟩) :
    sourceHandler db raw = sourceForId db fid := by
  unfold sourceHandler
  rw [hval]
  rfl

/-- On an id carrying the external marker, the source handler returns the
metadata-bearing not-found when a row exists and the plain not-found
otherwise. -/
theorem sourceForId_ext {db : DB} {nodeId : String} (hext : hasExtMarker nodeId = true) :
    sourceForId db nodeId =
      match db.nodes.find? (fun n => n.id == nodeId) with
      | some n => SourceOutcome.extNotFound n.name n.package n.type_info
      | none => SourceOutcome.extNotFoundPlain := by
  unfold sourceForId
  rw [if_pos hext]

/-- Reduction of the source handler body on the fully successful path. -/
theorem sourceForId_found {db : DB} {nodeId : String} {node : NodeRow} {f : String}
    {src : SourceFileRow}
    (hext : hasExtMarker nodeId = false)
    (hn : db.nodes.find? (fun n => n.id == nodeId) = some node)
    (hf : node.file = some f) (hfne : f ≠ "")
    (hs : db.sources.find? (fun s2 => s2.file == f) = some src) :
    sourceForId db nodeId = SourceOutcome.ok ⟨f,
      orFalsy node.line 1,
      orFalsy node.end_line
        (orFalsy node.line (Int.ofNat (jsSplitNl src.content).length)),
      String.intercalate ("\n") (jsSlice (jsSplitNl src.content)
        (orFalsy node.line 1 - 1)
        ((orFalsy node.end_line
          (orFalsy node.line (Int.ofNat (jsSplitNl src.content).length)) - 1) + 1))⟩ := by
  unfold sourceForId
  rw [if_neg (by simp [hext])]
  rw [hn]
  simp only []
  rw [hf]
  simp only []
  rw [if_neg hfne, hs]

theorem intercalate_singleton (x : String) : String.intercalate ("\n") [x] = x := by
  simp [String.intercalate, String.intercalate.go]

theorem orFalsy_none (d : Int) : orFalsy none d = d := rfl

theorem orFalsy_some {v : Int} (d : Int) (h : ¬v = 0) : orFalsy (some v) d = v := by
  simp [orFalsy, h]

theorem jsSlice_window {α : Type} (l : List α) (h : l.length = 20) :
    jsSlice l ((10 : Int) - 1) (((12 : Int) - 1) + 1) = (l.drop 9).take 3 := by
  simp [jsSlice, jsIdx, h]

theorem jsSlice_single (l : List String) (h : 5 ≤ l.length) :
    jsSlice l ((5 : Int) - 1) (((5 : Int) - 1) + 1) = [l.getD 4 ""] := by
  have h4 : 4 < l.length := by omega
  simp [jsSlice, jsIdx]
  rw [Nat.min_eq_left (by omega), Nat.min_eq_left (by omega)]
  simp [List.getElem?_eq_getElem h4]
  rw [List.drop_eq_getElem_cons h4, List.take_succ_cons, List.take_zero]

theorem jsSlice_full {α : Type} (l : List α) :
    jsSlice l ((1 : Int) - 1) ((Int.ofNat l.length - 1) + 1) = l := by
  simp [jsSlice, jsIdx]
  split <;> omega

/-! ### C7: line slicing of GetSource -/

/-- C7: on a validated non-external id whose node and source file are
found, the source handler slices as the claim states: with
`line = 10, end_line = 12` over a 20-line file the code is exactly lines
10 through 12 (three lines) and the reported range is 10/12; with only
`line = 5` the code is exactly line 5 (reported range 5/5); with both
absent the slice covers line 1 through the last line. -/
theorem c7_source_slicing (db : DB) (raw fid : String) (node : NodeRow) (f : String)
    (src : SourceFileRow)
    (hval : sanitizeNodeId raw = ⟨true, fid, none⟩)
    (hext : hasExtMarker fid = false)
    (hn : db.nodes.find? (fun n => n.id == fid) = some node)
    (hf : node.file = some f) (hfne : f ≠ "")
    (hs : db.sources.find? (fun s2 => s2.file == f) = some src) :
    (node.line = some 10 → node.end_line = some 12 →
      (jsSplitNl src.content).length = 20 →
      sourceHandler db raw = SourceOutcome.ok ⟨f, 10, 12,
        String.intercalate ("\n") (((jsSplitNl src.content).drop 9).take 3)⟩ ∧
      (((jsSplitNl src.content).drop 9).take 3).length = 3) ∧
    (node.line = some 5 → node.end_line = none →
      5 ≤ (jsSplitNl src.content).length →
      sourceHandler db raw =
        SourceOutcome.ok ⟨f, 5, 5, (jsSplitNl src.content).getD 4 ""⟩) ∧
    (node.line = none → node.end_line = none →
      sourceHandler db raw = SourceOutcome.ok ⟨f, 1,
        Int.ofNat (jsSplitNl src.content).length,
        String.intercalate ("\n") (jsSplitNl src.content)⟩) := by
  refine ⟨?_, ?_, ?_⟩
  · intro h10 h12 h20
    constructor
    · rw [sourceHandler_valid hval, sourceForId_found hext hn hf hfne hs, h10, h12]
      rw [orFalsy_some 1 (by norm_num)]
      rw [orFalsy_some _ (by norm_num)]
      rw [jsSlice_window _ h20]
    · simp [List.length_take, List.length_drop, h20]
  · intro h5 hnone hlen
    rw [sourceHandler_valid hval, sourceForId_found hext hn hf hfne hs, h5, hnone]
    rw [orFalsy_none]
    rw [orFalsy_some 1 (by norm_num)]
    rw [orFalsy_some _ (by norm_num)]
    rw [jsSlice_single _ hlen]
    rw [intercalate_singleton]
  · intro hline hnone
    rw [sourceHandler_valid hval, sourceForId_found hext hn hf hfne hs, hline, hnone]
    rw [orFalsy_none, orFalsy_none, orFalsy_none]
    rw [jsSlice_full]

/-- Twenty-line file content used by the C7 witness. -/
def content20 : String :=
  "L1\nL2\nL3\nL4\nL5\nL6\nL7\nL8\nL9\nL10\nL11\nL12\nL13\nL14\nL15\nL16\nL17\nL18\nL19\nL20"

/-- Node with line 10 and end_line 12 for the C7 witness. -/
def n10R : NodeRow :=
  ⟨("n10"), some ("f10"), ("function"), none, some ("f"), some 10, some 12, none⟩

/-- Node with only line 5 for the C7 witness. -/
def n5R : NodeRow := ⟨("n5"), some ("f5"), ("function"), none, some ("f"), some 5, none, none⟩

/-- Node with no line metadata for the C7 witness. -/
def n0R : NodeRow := ⟨("n0"), some ("f0"), ("function"), none, some ("f"), none, none, none⟩

/-- Witness store for C7: three nodes over one twenty-line file. -/
def dbC7 : DB := ⟨[n10R, n5R, n0R], [], [⟨("f"), content20⟩]⟩

/-- Witness for C7 at the concrete twenty-line store: the 10..12 window,
the single line 5, and the whole-file default. -/
theorem c7_witness :
    sourceHandler dbC7 ("n10") = SourceOutcome.ok ⟨("f"), 10, 12,
      String.intercalate ("\n") (((jsSplitNl content20).drop 9).take 3)⟩ ∧
    sourceHandler dbC7 ("n5") = SourceOutcome.ok ⟨("f"), 5, 5,
      (jsSplitNl content20).getD 4 ""⟩ ∧
    sourceHandler dbC7 ("n0") = SourceOutcome.ok ⟨("f"), 1,
      Int.ofNat (jsSplitNl content20).length,
      String.intercalate ("\n") (jsSplitNl content20)⟩ :=
  ⟨((c7_source_slicing dbC7 ("n10") ("n10") n10R ("f") ⟨("f"), content20⟩
      (by decide) (by decide) (by decide) rfl (by decide) (by decide)).1 rfl rfl (by decide)).1,
   (c7_source_slicing dbC7 ("n5") ("n5") n5R ("f") ⟨("f"), content20⟩
      (by decide) (by decide) (by decide) rfl (by decide) (by decide)).2.1 rfl rfl (by decide),
   (c7_source_slicing dbC7 ("n0") ("n0") n0R ("f") ⟨("f"), content20⟩
      (by decide) (by decide) (by decide) rfl (by decide) (by decide)).2.2 rfl rfl⟩

/-! ### C8: external-marker ids never yield source code -/

/-- True exactly on the `ok` outcome carrying a code payload. -/
def isSourceOk : SourceOutcome → Bool
  | SourceOutcome.ok _ => true
  | _ => false

/-- True exactly on the metadata-bearing external not-found outcome. -/
def carriesExtMetadata : SourceOutcome → Bool
  | SourceOutcome.extNotFound _ _ _ => true
  | _ => false

/-- C8, refuted as stated: on a store with no rows, the external id
ext::x still answers NotFound and never code, but the answer carries no
display metadata, against the claim's "carrying the node's display
metadata ... regardless of whether a row for that id exists". -/
theorem c8_counterexample :
    sourceHandler ⟨[], [], []⟩ ("ext::x") = SourceOutcome.extNotFoundPlain ∧
    carriesExtMetadata (sourceHandler ⟨[], [], []⟩ ("ext::x")) = false :=
  ⟨by decide, by decide⟩

/-- C8, as amended: on a validated id bearing the external marker the
source handler never returns a code payload; it always answers NotFound:
with the node's display metadata (name, package, type_info) when a row
with that id exists, and as a plain metadata-free NotFound when none
does. -/
theorem c8_ext_never_code (db : DB) (raw fid : String)
    (hval : sanitizeNodeId raw = ⟨true, fid, none⟩)
    (hext : hasExtMarker fid = true) :
    isSourceOk (sourceHandler db raw) = false ∧
    (∀ n, db.nodes.find? (fun m => m.id == fid) = some n →
      sourceHandler db raw = SourceOutcome.extNotFound n.name n.package n.type_info) ∧
    (db.nodes.find? (fun m => m.id == fid) = none →
      sourceHandler db raw = SourceOutcome.extNotFoundPlain) := by
  rw [sourceHandler_valid hval, sourceForId_ext hext]
  refine ⟨?_, ?_, ?_⟩
  · cases h : db.nodes.find? (fun m => m.id == fid) <;> rfl
  · intro n h
    rw [h]
  · intro h
    rw [h]

/-- External node row of the C8 witness store. -/
def extRow : NodeRow :=
  ⟨("ext::a"), some ("nm"), ("external"), some ("p"), none, none, none, some ("ti")⟩

/-- Witness store for C8. -/
def dbC8 : DB := ⟨[extRow], [], []⟩

/-- Witness for C8's amended theorem: the stored external id answers the
metadata-bearing NotFound and never a code payload. -/
theorem c8_witness :
    isSourceOk (sourceHandler dbC8 ("ext::a")) = false ∧
    sourceHandler dbC8 ("ext::a") =
      SourceOutcome.extNotFound (some ("nm")) (some ("p")) (some ("ti")) :=
  ⟨(c8_ext_never_code dbC8 ("ext::a") ("ext::a") (by decide) (by decide)).1,
   (c8_ext_never_code dbC8 ("ext::a") ("ext::a") (by decide) (by decide)).2.1 extRow (by decide)⟩

/-! ### Unfolding of the graph handler success path -/

/-- The deduplicated id list after the `MAX_NODES_IN_GRAPH` truncation
(`nodeIdArray` after the `splice`). -/
def cappedIds (db : DB) (fid : String) (fr : NodeRow) : List String :=
  let ids := dedupKeepFirst (fr.id :: (neighborhoodQuery db fid).map (fun r => r.id))
  if ids.length > MAX_NODES_IN_GRAPH then ids.take MAX_NODES_IN_GRAPH else ids

/-- Unfolding equation for `graphForId` with its `let` bindings
expanded. -/
theorem graphForId_eq (db : DB) (fid : String) :
    graphForId db fid =
      match db.nodes.find? (fun n => n.id == fid && n.kind == ("function")) with
      | none =>
        match db.nodes.find? (fun n => n.id == fid) with
        | some anyNode =>
          GraphOutcome.err 400
            (("Node exists but is not a function (kind: ") ++ anyNode.kind ++ (")"))
        | none => GraphOutcome.err 404 (("Function not found: ") ++ fid)
      | some fr =>
        if (dedupKeepFirst (fr.id :: (neighborhoodQuery db fid).map (fun r => r.id))).isEmpty then
          GraphOutcome.ok ⟨(⟨fr.id, jsOrStr fr.name fr.id⟩ : GNode) ::
            (neighborhoodQuery db fid).map (fun r => (⟨r.id, jsOrStr r.name r.id⟩ : GNode)), []⟩
        else
          GraphOutcome.ok ⟨(⟨fr.id, jsOrStr fr.name fr.id⟩ : GNode) ::
            (neighborhoodQuery db fid).map (fun r => (⟨r.id, jsOrStr r.name r.id⟩ : GNode)),
            ((db.edges.filter (fun e => e.kind == ("call") &&
              (cappedIds db fid fr).contains e.source &&
              (cappedIds db fid fr).contains e.target)).enum).map
              (fun p => (⟨("edge-") ++ Nat.repr p.1, p.2.source, p.2.target⟩ : GEdge))⟩ := rfl

/-! ### C3: duplicate entries in the response node list -/

theorem dedupAux_spec (l : List String) : ∀ seen,
    (dedupAux seen l).Nodup ∧ ∀ x ∈ dedupAux seen l, seen.contains x = false := by
  induction l with
  | nil =>
    intro seen
    exact ⟨List.nodup_nil, by intro x hx; cases hx⟩
  | cons a as ih =>
    intro seen
    unfold dedupAux
    by_cases h : seen.contains a = true
    · rw [if_pos h]
      exact ih seen
    · rw [if_neg h]
      obtain ⟨hnd, hni⟩ := ih (a :: seen)
      constructor
      · rw [List.nodup_cons]
        refine ⟨?_, hnd⟩
        intro hmem
        have hc := hni a hmem
        simp [List.contains_cons] at hc
      · intro x hx
        rcases List.mem_cons.mp hx with heq | hx2
        · subst heq
          simp only [Bool.not_eq_true] at h
          exact h
        · have hc := hni x hx2
          simp only [List.contains_cons, Bool.or_eq_false_iff] at hc
          exact hc.2

theorem dedupKeepFirst_nodup (l : List String) : (dedupKeepFirst l).Nodup :=
  (dedupAux_spec l []).1

/-- Store in which node a is both a caller and a callee of t. -/
def dbC3 : DB := ⟨[tFn, aFn], [⟨("a"), ("t"), ("call")⟩, ⟨("t"), ("a"), ("call")⟩], []⟩

/-- Id projection of a successful graph response (empty on errors). -/
def okNodeIds : GraphOutcome → List String
  | GraphOutcome.ok r => r.nodes.map (fun n => n.id)
  | GraphOutcome.err _ _ => []

/-- C3, refuted as stated: on the store where a both calls and is called
by t, the response node list is t, a, a — the neighbor a appears twice
(once per direction-tagged row), so the returned node list is not
duplicate-free. -/
theorem c3_counterexample :
    okNodeIds (functionGraphHandler dbC3 ("t")) = [("t"), ("a"), ("a")] ∧
    ¬(okNodeIds (functionGraphHandler dbC3 ("t"))).Nodup :=
  ⟨by decide, by decide⟩

/-- Reduction of the graph handler body when the target function row is
found. -/
theorem graphForId_found {db : DB} {fid : String} {fr : NodeRow}
    (hfr : db.nodes.find? (fun n => n.id == fid && n.kind == ("function")) = some fr) :
    graphForId db fid =
      if (dedupKeepFirst (fr.id :: (neighborhoodQuery db fid).map (fun r => r.id))).isEmpty then
        GraphOutcome.ok ⟨(⟨fr.id, jsOrStr fr.name fr.id⟩ : GNode) ::
          (neighborhoodQuery db fid).map (fun r => (⟨r.id, jsOrStr r.name r.id⟩ : GNode)), []⟩
      else
        GraphOutcome.ok ⟨(⟨fr.id, jsOrStr fr.name fr.id⟩ : GNode) ::
          (neighborhoodQuery db fid).map (fun r => (⟨r.id, jsOrStr r.name r.id⟩ : GNode)),
          ((db.edges.filter (fun e => e.kind == ("call") &&
            (cappedIds db fid fr).contains e.source &&
            (cappedIds db fid fr).contains e.target)).enum).map
            (fun p => (⟨("edge-") ++ Nat.repr p.1, p.2.source, p.2.target⟩ : GEdge))⟩ := by
  rw [graphForId_eq, hfr]

/-- C3, as amended: on a successful GetNeighborhood, the returned node
list has one entry per neighborhood row plus the target — so a neighbor
that is both caller and callee appears once per row — while set semantics
(duplicates collapse) apply only to the deduplicated id list that feeds
the induced-edge query, which is duplicate-free. -/
theorem c3_nodes_one_per_row (db : DB) (raw fid : String) (fr : NodeRow)
    (hval : sanitizeNodeId raw = ⟨true, fid, none⟩)
    (hfr : db.nodes.find? (fun n => n.id == fid && n.kind == ("function")) = some fr) :
    ∃ resp, functionGraphHandler db raw = GraphOutcome.ok resp ∧
      resp.nodes.map (fun n => n.id) =
        fr.id :: (neighborhoodQuery db fid).map (fun r => r.id) ∧
      (dedupKeepFirst (fr.id :: (neighborhoodQuery db fid).map (fun r => r.id))).Nodup := by
  rw [functionGraphHandler_valid hval, graphForId_found hfr]
  by_cases hemp :
      (dedupKeepFirst (fr.id :: (neighborhoodQuery db fid).map (fun r => r.id))).isEmpty = true
  · rw [if_pos hemp]
    refine ⟨_, rfl, ?_, dedupKeepFirst_nodup _⟩
    rw [List.map_cons, List.map_map]
    rfl
  · rw [if_neg hemp]
    refine ⟨_, rfl, ?_, dedupKeepFirst_nodup _⟩
    rw [List.map_cons, List.map_map]
    rfl

/-- Witness for C3's amended theorem at the two-node store. -/
theorem c3_witness :
    ∃ resp, functionGraphHandler dbC3 ("t") = GraphOutcome.ok resp ∧
      resp.nodes.map (fun n => n.id) =
        tFn.id :: (neighborhoodQuery dbC3 ("t")).map (fun r => r.id) ∧
      (dedupKeepFirst (tFn.id :: (neighborhoodQuery dbC3 ("t")).map (fun r => r.id))).Nodup :=
  c3_nodes_one_per_row dbC3 ("t") ("t") tFn (by decide) (by decide)

/-! ### C1: the node cap truncates only the edge-query id array -/

/-- Distinct ids for the 1001 callers: the all-c string of length i+1. -/
def cid (i : Nat) : String := String.mk ('c' :: List.replicate i 'c')

/-- Caller node i of the C1 store. -/
def callerNode (i : Nat) : NodeRow :=
  ⟨cid i, some ("x"), ("function"), none, none, none, none, none⟩

/-- Call edge from caller i to the target t. -/
def callerEdge (i : Nat) : EdgeRow := ⟨cid i, ("t"), ("call")⟩

/-- C1 store: function node t with 1001 distinct callers. -/
def db1001 : DB :=
  ⟨tFn :: (List.range 1001).map callerNode, (List.range 1001).map callerEdge, []⟩

/-- Caller row produced for caller i. -/
def crow (i : Nat) : NRow := ⟨("caller"), cid i, some ("x"), none, none, none⟩

theorem cid_inj {i j : Nat} (h : cid i = cid j) : i = j := by
  have hd := congrArg String.data h
  simp only [cid] at hd
  have hl := congrArg List.length hd
  simp [List.length_replicate] at hl
  exact hl

theorem t_ne_cid (i : Nat) : ("t" : String) ≠ cid i := by
  intro h
  have hd := congrArg String.data h
  simp [cid] at hd

theorem cid_beq (i j : Nat) : (cid i == cid j) = (i == j) := by
  by_cases h : i = j
  · subst h
    simp
  · rw [beq_eq_false_iff_ne.mpr (fun hc => h (cid_inj hc)), beq_eq_false_iff_ne.mpr h]

theorem filter_beq_range {i n : Nat} (h : i < n) :
    (List.range n).filter (fun j => j == i) = [i] := by
  induction n with
  | zero => omega
  | succ m ih =>
    rw [List.range_succ, List.filter_append]
    by_cases hm : i < m
    · rw [ih hm]
      have hone : List.filter (fun j => j == i) [m] = [] := by
        have hne : (m == i) = false := beq_eq_false_iff_ne.mpr (by omega)
        simp [List.filter, hne]
      rw [hone, List.append_nil]
    · have hi : i = m := by omega
      subst hi
      have h0 : (List.range i).filter (fun j => j == i) = [] := by
        rw [List.filter_eq_nil_iff]
        intro a ha
        have := List.mem_range.mp ha
        simp only [beq_iff_eq]
        omega
      rw [h0, List.nil_append]
      simp [List.filter]

set_option maxRecDepth 100000 in
theorem nodes_filter_cid {i : Nat} :
    db1001.nodes.filter (fun n => n.id == (callerEdge i).source && n.kind == ("function")) =
      List.map callerNode ((List.range 1001).filter (fun j => j == i)) := by
  show (tFn :: (List.range 1001).map callerNode).filter
    (fun n => n.id == cid i && n.kind == ("function")) = _
  rw [List.filter_cons]
  have h1 : (tFn.id == cid i) = false := beq_eq_false_iff_ne.mpr (t_ne_cid i)
  simp only [h1, Bool.false_and, Bool.false_eq_true, if_false]
  rw [List.filter_map]
  refine congrArg (List.map callerNode) (List.filter_congr ?_)
  intro j _
  show ((callerNode j).id == cid i && (callerNode j).kind == ("function")) = (j == i)
  have hk : ((callerNode j).kind == ("function")) = true := by rfl
  rw [hk, Bool.and_true]
  exact cid_beq j i

set_option maxRecDepth 100000 in
theorem db1001_edges_eq : db1001.edges = (List.range 1001).map callerEdge := rfl

set_option maxRecDepth 100000 in
theorem callerRows_db1001 : callerRows db1001 ("t") = (List.range 1001).map crow := by
  unfold callerRows
  have hfil : db1001.edges.filter (fun e => e.kind == ("call") && e.target == ("t")) =
      db1001.edges := by
    rw [List.filter_eq_self]
    intro e he
    have he2 : e ∈ (List.range 1001).map callerEdge := db1001_edges_eq ▸ he
    rcases List.mem_map.mp he2 with ⟨i, _, rfl⟩
    rfl
  rw [hfil, db1001_edges_eq, List.flatMap_map]
  rw [List.flatMap_congr (g := fun i => [crow i]) ?_]
  · exact Eq.symm (List.map_eq_flatMap crow (List.range 1001))
  · intro i hi
    have hlt := List.mem_range.mp hi
    rw [nodes_filter_cid, filter_beq_range hlt]
    rfl

set_option maxRecDepth 100000 in
theorem calleeRows_db1001 : calleeRows db1001 ("t") = [] := by
  unfold calleeRows
  have hfil : db1001.edges.filter (fun e => e.kind == ("call") && e.source == ("t")) = [] := by
    rw [List.filter_eq_nil_iff]
    intro e he
    have he2 : e ∈ (List.range 1001).map callerEdge := db1001_edges_eq ▸ he
    rcases List.mem_map.mp he2 with ⟨i, _, rfl⟩
    have hne : ((callerEdge i).source == ("t")) = false :=
      beq_eq_false_iff_ne.mpr (fun hc => t_ne_cid i hc.symm)
    simp [hne]
  rw [hfil]
  rfl

set_option maxRecDepth 100000 in
theorem rows_db1001_len : (neighborhoodQuery db1001 ("t")).length = 1001 := by
  unfold neighborhoodQuery
  rw [callerRows_db1001, calleeRows_db1001, List.append_nil, List.length_insertionSort]
  simp

set_option maxRecDepth 100000 in
theorem rows_db1001_ids_perm :
    ((neighborhoodQuery db1001 ("t")).map (fun r => r.id)).Perm ((List.range 1001).map cid) := by
  unfold neighborhoodQuery
  rw [callerRows_db1001, calleeRows_db1001, List.append_nil]
  have hperm :=
    (List.perm_insertionSort nrowLe ((List.range 1001).map crow)).map (fun r => r.id)
  rw [List.map_map] at hperm
  exact hperm

set_option maxRecDepth 100000 in
theorem db1001_idlist_nodup :
    (tFn.id :: (neighborhoodQuery db1001 ("t")).map (fun r => r.id)).Nodup := by
  rw [List.nodup_cons]
  constructor
  · intro hmem
    have := rows_db1001_ids_perm.mem_iff.mp hmem
    rcases List.mem_map.mp this with ⟨i, _, hci⟩
    exact t_ne_cid i hci.symm
  · apply rows_db1001_ids_perm.symm.nodup
    exact (List.nodup_map_iff_inj_on (List.nodup_range 1001)).mpr
      (fun x _ y _ h => cid_inj h)

theorem dedupAux_eq_self (l : List String) : ∀ seen, l.Nodup →
    (∀ x ∈ l, seen.contains x = false) → dedupAux seen l = l := by
  induction l with
  | nil => intro seen _ _; rfl
  | cons a as ih =>
    intro seen hnd hdis
    unfold dedupAux
    rw [if_neg (by simpa using hdis a (List.mem_cons_self a as))]
    congr 1
    apply ih
    · exact (List.nodup_cons.mp hnd).2
    · intro x hx
      have h1 : x ≠ a := fun he => (List.nodup_cons.mp hnd).1 (he ▸ hx)
      have h2 := hdis x (List.mem_cons_of_mem a hx)
      have h3 : x ∉ seen := by simpa using h2
      simp [List.contains_cons, h1, h3]

set_option maxRecDepth 100000 in
theorem db1001_idset_len :
    (dedupKeepFirst (tFn.id :: (neighborhoodQuery db1001 ("t")).map (fun r => r.id))).length
      = 1002 := by
  unfold dedupKeepFirst
  rw [dedupAux_eq_self _ [] db1001_idlist_nodup (by intro x _; rfl)]
  rw [List.length_cons, rows_db1001_ids_perm.length_eq]
  simp

/-- Node-id projection of the graph handler body when the target function
row is found: the target's id followed by one id per neighborhood row,
independent of the edge branch taken. -/
theorem okNodeIds_graphForId_found {db : DB} {fid : String} {fr : NodeRow}
    (hfr : db.nodes.find? (fun n => n.id == fid && n.kind == ("function")) = some fr) :
    okNodeIds (graphForId db fid) =
      fr.id :: (neighborhoodQuery db fid).map (fun r => r.id) := by
  rw [graphForId_found hfr]
  by_cases hemp :
      (dedupKeepFirst (fr.id :: (neighborhoodQuery db fid).map (fun r => r.id))).isEmpty = true
  · rw [if_pos hemp]
    show ((⟨fr.id, jsOrStr fr.name fr.id⟩ : GNode) ::
      (neighborhoodQuery db fid).map (fun r => (⟨r.id, jsOrStr r.name r.id⟩ : GNode))).map
        (fun n => n.id) = _
    rw [List.map_cons, List.map_map]
    rfl
  · rw [if_neg hemp]
    show ((⟨fr.id, jsOrStr fr.name fr.id⟩ : GNode) ::
      (neighborhoodQuery db fid).map (fun r => (⟨r.id, jsOrStr r.name r.id⟩ : GNode))).map
        (fun n => n.id) = _
    rw [List.map_cons, List.map_map]
    rfl

set_option maxRecDepth 100000 in
/-- C1, on the failing input: the store where t has 1001 distinct callers.
The deduplicated node id set numbers 1002 > 1000, yet the returned node
list also has 1002 entries, not the 1000 the claim (and the code's own
"limit maximum number of nodes" comment) require: the splice caps only the
id array used by the induced-edge query, never the response nodes. -/
theorem c1_nodes_uncapped :
    (dedupKeepFirst (tFn.id :: (neighborhoodQuery db1001 ("t")).map (fun r => r.id))).length
      = 1002 ∧
    (okNodeIds (functionGraphHandler db1001 ("t"))).length = 1002 ∧
    (okNodeIds (functionGraphHandler db1001 ("t"))).length ≠ MAX_NODES_IN_GRAPH := by
  have hval : sanitizeNodeId ("t") = ⟨true, ("t"), none⟩ := by decide
  have hfr : db1001.nodes.find? (fun n => n.id == ("t") && n.kind == ("function")) = some tFn := by
    show List.find? _ (tFn :: _) = _
    rw [List.find?_cons_of_pos _ (by decide)]
  have hlen2 : (okNodeIds (functionGraphHandler db1001 ("t"))).length = 1002 := by
    rw [functionGraphHandler_valid hval, okNodeIds_graphForId_found hfr]
    rw [List.length_cons, List.length_map, rows_db1001_len]
  exact ⟨db1001_idset_len, hlen2, by rw [hlen2]; decide⟩
